import Mathlib

/-!
Publish/subscribe framework: the server's `MongoConnectionMgr`.

A shallow embedding of `src/server/main.mjs` (class `MongoConnectionMgr`) and
theorems about its subscription registry and its buffering engine.

Modelling conventions.

* A JavaScript `Map` and a plain object `{}` are insertion-ordered finite maps
  from strings (`JsMap`); only own properties are modelled.  The key
  `__proto__` is not an own property of a plain object: the assignment of a
  number under it is ignored (`putNumber`), and the statements about what
  `bufferedSubscribe` registers leave that collection name out.
* `socket.id` identifies the socket, so a socket is represented by its
  `ConnID`, and `socket.emit(name, payload)` appends `(socket.id, event)` to
  the log `Mgr.out`.  The payload is recorded as it is at the moment of the
  call (the transport encodes a packet when `emit` is called).
* Change streams and timers are created by the runtime; the manager state
  records every stream opened (`Mgr.watchers`) and every timer scheduled
  (`Mgr.timers`); the identity of a stream or timer is its index there.
* A thrown `TypeError` (reading or writing a property of `undefined`) is
  reported in `Completion.thrown`, together with the state reached when it was
  thrown.  For the `async` methods this is the rejection of the returned
  promise.
* An `async` method gives control back at each `await`.  `bufferedSubscribe`
  is given by its two resumptions, `bufferedSubscribeListed` (after the
  `await` of line 141) and `bufferedSubscribeSnapshot` (after the `await` of
  line 153); each takes the state found at the resumption and the outcome of
  the awaited store call, which may be a rejection.  The definitions
  `subscribe` and `bufferedSubscribe` are the runs in which no other callback
  runs at the `await`s and the store calls resolve; they serve for concrete
  runs only.
-/

namespace PubSub

/-! ## Finite maps -/

/-- Insertion-ordered finite map with string keys: a JavaScript `Map` keyed by
strings, or the own properties of a plain object. -/
abbrev JsMap (α : Type) := List (String × α)

/-- Lookup, `m.get(k)` or `obj[k]`: `none` is `undefined`. -/
def mapGet {α : Type} : JsMap α → String → Option α
  | [], _ => none
  | (k', v) :: rest, k => if k' = k then some v else mapGet rest k

/-- Membership test, `m.has(k)`. -/
def mapHas {α : Type} (m : JsMap α) (k : String) : Bool :=
  (mapGet m k).isSome

/-- Update, `m.set(k, v)` or `obj[k] = v`: an existing key keeps its position,
a new key is appended. -/
def mapSet {α : Type} : JsMap α → String → α → JsMap α
  | [], k, v => [(k, v)]
  | (k', v') :: rest, k, v =>
    if k' = k then (k, v) :: rest else (k', v') :: mapSet rest k v

/-- Removal, `m.delete(k)` or `delete obj[k]`. -/
def mapDelete {α : Type} (m : JsMap α) (k : String) : JsMap α :=
  m.filter (fun kv => !(kv.1 == k))

/-- The keys in insertion order, which is the order of `for (let key in obj)`
for keys that are not array indices (`for ... in` visits keys such as `"7"`
first, in ascending order).  In `cleanup` the order matters only when a
collection is named like the connection id. -/
def mapKeys {α : Type} (m : JsMap α) : List String :=
  m.map Prod.fst

/-- The expression `m.get(c)[n]`.  The outer `none` means that `m.get(c)` is
`undefined`, so that the property access throws a `TypeError`; `some none`
means that the property is absent and the expression is `undefined`. -/
def getProp {α : Type} (m : JsMap (JsMap α)) (c n : String) : Option (Option α) :=
  (mapGet m c).map (fun obj => mapGet obj n)

/-- The assignment `m.get(c)[n] = v`, which mutates the object stored under
`c`.  `none` means that `m.get(c)` is `undefined` (a `TypeError`).  For every
key but `__proto__` the assignment writes an own property of a plain object.
Under the key `__proto__` an array, a change stream or a timer handle still
reads back as assigned, which is all the buffering engine needs; a number
does not, see `putNumber`. -/
def putProp {α : Type} (m : JsMap (JsMap α)) (c n : String) (v : α) :
    Option (JsMap (JsMap α)) :=
  (mapGet m c).map (fun obj => mapSet m c (mapSet obj n v))

/-- The assignment `m.get(c)[n] = v` of a number `v` (lines 168 and 169).
Under the key `__proto__` the assignment runs the setter that a plain object
inherits, which ignores a value that is neither an object nor `null`: nothing
is written.  Reading the key back then gives the prototype object, which
behaves as `undefined` in the test of the limit and as a delay of
`setTimeout`; the model reads it as `undefined`. -/
def putNumber (m : JsMap (JsMap Int)) (c n : String) (v : Int) :
    Option (JsMap (JsMap Int)) :=
  if n = "__proto__" then (mapGet m c).map (fun _ => m) else putProp m c n v

/-! ## Data model -/

/-- Value of `socket.id`. -/
abbrev ConnID := String
/-- Collection name. -/
abbrev CollName := String
/-- Aggregation pipeline; the manager does not look into it. -/
abbrev Pipeline := List String
/-- Document of the store; the manager does not look into it. -/
abbrev Doc := Nat
/-- Change event of a change stream; the manager does not look into it. -/
abbrev Change := Nat

/-- The closure registered with `.on("change", ...)`: `direct` is the one of
`subscribe`, `buffered` the one of `bufferedSubscribe`.  Both capture the
connection id (socket) and the collection name. -/
inductive Handler where
  | direct (connectionID : ConnID) (collectionName : CollName)
  | buffered (connectionID : ConnID) (collectionName : CollName)
  deriving DecidableEq, Repr

/-- A change stream returned by `requestedCollection.watch(pipeline)`.
`conn` records the connection whose request opened it. -/
structure Watcher where
  conn : ConnID
  coll : CollName
  pipeline : Pipeline
  handler : Option Handler
  closed : Bool
  deriving DecidableEq, Repr

/-- Life cycle of a timer created by `setTimeout`. -/
inductive TimerStatus where
  | pending
  | fired
  | cleared
  deriving DecidableEq, Repr

/-- A timer created by `setTimeout` in `bufferChangeForEmission`; its callback
is `emitBufferedChanges(conn, coll, socket)`.  `delay` is the second argument
of `setTimeout` (`none` is `undefined`). -/
structure Timer where
  conn : ConnID
  coll : CollName
  delay : Option Int
  status : TimerStatus
  deriving DecidableEq, Repr

/-- Outbound events, by event name, with the fields of the payload that
identify them. -/
inductive Event where
  | subscribeError (collectionName : CollName)
  | initialDocuments (collectionName : CollName) (data : List Doc)
  | updateDocuments (collectionName : CollName) (change : Change)
  | bufferedUpdateDocuments (collectionName : CollName) (changes : List Change)
  deriving DecidableEq, Repr

/-- The document store as the manager sees it: the names returned by
`db.listCollections()` and the result of `aggregate(pipeline)`. -/
structure Store where
  listCollections : List CollName
  aggregate : CollName → Pipeline → List Doc

/-- State of a `MongoConnectionMgr` with the runtime objects it created.
`collections` caches a handle per name; a handle is represented by the name
of the collection it designates.  A value `none` in `changeTimers` is `null`. -/
structure Mgr where
  collections : JsMap CollName
  watches : JsMap (JsMap Nat)
  changeBuffers : JsMap (JsMap (List Change))
  changeLimits : JsMap (JsMap Int)
  changeTimers : JsMap (JsMap (Option Nat))
  changeEmitDelays : JsMap (JsMap Int)
  watchers : List Watcher
  timers : List Timer
  out : List (ConnID × Event)
  deriving DecidableEq, Repr

/-- State built by the constructor: five empty maps and an empty cache. -/
def Mgr.init : Mgr :=
  { collections := [], watches := [], changeBuffers := [], changeLimits := [],
    changeTimers := [], changeEmitDelays := [], watchers := [], timers := [],
    out := [] }

/-- Uncaught JavaScript errors: a `TypeError`, or the error with which an
awaited store call was rejected. -/
inductive JsError where
  | typeError
  | storeError
  deriving DecidableEq, Repr

/-- Outcome of an awaited store call. -/
inductive Awaited (α : Type) where
  | resolved (value : α)
  | rejected
  deriving DecidableEq, Repr

/-- Outcome of running a method or a callback: the state reached, and the error
thrown if it did not run to its end. -/
structure Completion where
  mgr : Mgr
  thrown : Option JsError
  deriving DecidableEq, Repr

/-! ## Runtime operations -/

/-- Models `socket.emit(...)` on the socket of `connectionID`. -/
def emit (connectionID : ConnID) (e : Event) (s : Mgr) : Mgr :=
  { s with out := s.out ++ [(connectionID, e)] }

/-- Models `requestedCollection.watch(pipeline)`: opens a change stream.  The
call returns the stream object at once. -/
def openWatcher (connectionID : ConnID) (requestedCollection : CollName)
    (pipeline : Pipeline) (s : Mgr) : Mgr :=
  { s with watchers := s.watchers ++
      [{ conn := connectionID, coll := requestedCollection, pipeline := pipeline,
         handler := none, closed := false }] }

/-- Models `watcher.on("change", h)`. -/
def onChange (w : Nat) (h : Handler) (s : Mgr) : Mgr :=
  { s with watchers := s.watchers.modify (fun wt => { wt with handler := some h }) w }

/-- Models `watcher.close()`. -/
def closeWatcher (w : Nat) (s : Mgr) : Mgr :=
  { s with watchers := s.watchers.modify (fun wt => { wt with closed := true }) w }

/-- Models `setTimeout(() => this.emitBufferedChanges(c, n, socket), delay)`; the
new timer is the last of `timers`. -/
def setTimeout (connectionID : ConnID) (collectionName : CollName)
    (delay : Option Int) (s : Mgr) : Mgr :=
  { s with timers := s.timers ++
      [{ conn := connectionID, coll := collectionName, delay := delay,
         status := TimerStatus.pending }] }

/-- Models `clearTimeout(t)`: cancels a pending timer, and does nothing to a timer
that has fired or was cancelled. -/
def clearTimeout (t : Nat) (s : Mgr) : Mgr :=
  { s with
    timers := s.timers.modify
                (fun tm => if tm.status = TimerStatus.pending
                  then { tm with status := TimerStatus.cleared } else tm) t }

/-- The statement `if (handle) { clearTimeout(handle); }`, for the value
`handle` read from `changeTimers`: `undefined` and `null` are falsy, a timer
object is truthy. -/
def clearExisting (handle : Option (Option Nat)) (s : Mgr) : Mgr :=
  match handle with
  | some (some t) => clearTimeout t s
  | _ => s

/-! ## The methods of `MongoConnectionMgr` -/

/-- Method `emitBufferedChanges(connectionID, collectionName, socket)`
(`main.mjs`, lines 200-209): emits the whole buffer as one
`bufferedUpdateDocuments` event and empties it, when it is not empty.  It
throws when the buffer is `undefined`. -/
def emitBufferedChanges (connectionID : ConnID) (collectionName : CollName)
    (s : Mgr) : Completion :=
  match getProp s.changeBuffers connectionID collectionName with
  | some (some buffer) =>
    if buffer.length > 0 then
      let s1 := emit connectionID (Event.bufferedUpdateDocuments collectionName buffer) s
      match putProp s1.changeBuffers connectionID collectionName [] with
      | some bufs => { mgr := { s1 with changeBuffers := bufs }, thrown := none }
      | none => { mgr := s1, thrown := some JsError.typeError }
    else { mgr := s, thrown := none }
  | _ => { mgr := s, thrown := some JsError.typeError }

/-- Method `bufferChangeForEmission(connectionID, collectionName, change, socket)`
(`main.mjs`, lines 179-198): appends the change to the buffer, cancels the
timer recorded for the Buffer, arms a new one, and flushes when the buffer has
reached the limit. -/
def bufferChangeForEmission (connectionID : ConnID) (collectionName : CollName)
    (change : Change) (s : Mgr) : Completion :=
  match getProp s.changeBuffers connectionID collectionName with
  | some (some buffer) =>
    match putProp s.changeBuffers connectionID collectionName (buffer ++ [change]) with
    | none => { mgr := s, thrown := some JsError.typeError }
    | some bufs =>
      let s1 := { s with changeBuffers := bufs }
      -- Clear any existing timer
      match getProp s1.changeTimers connectionID collectionName with
      | none => { mgr := s1, thrown := some JsError.typeError }
      | some handle =>
        let s2 := clearExisting handle s1
        -- Set a new timer to emit the changes
        match getProp s2.changeEmitDelays connectionID collectionName with
        | none => { mgr := s2, thrown := some JsError.typeError }
        | some delay =>
          let t := s2.timers.length
          let s3 := setTimeout connectionID collectionName delay s2
          match putProp s3.changeTimers connectionID collectionName (some t) with
          | none => { mgr := s3, thrown := some JsError.typeError }
          | some tms =>
            let s4 := { s3 with changeTimers := tms }
            match getProp s4.changeLimits connectionID collectionName with
            | none => { mgr := s4, thrown := some JsError.typeError }
            | some bufferLimit =>
              match getProp s4.changeBuffers connectionID collectionName with
              | some (some buffer') =>
                let bufferLength : Int := buffer'.length
                match bufferLimit with
                | some limit =>
                  if bufferLength ≥ limit then
                    emitBufferedChanges connectionID collectionName s4
                  else { mgr := s4, thrown := none }
                | none => { mgr := s4, thrown := none }
              | _ => { mgr := s4, thrown := some JsError.typeError }
  | _ => { mgr := s, thrown := some JsError.typeError }

/-- Method `subscribe(collectionName, pipeline, socket)` (`main.mjs`, lines
101-134), with `socket.id` for the socket.  When the collection is not found,
`subscribeError` is emitted and the method goes on; `requestedCollection` is
then `undefined` and `requestedCollection.aggregate` throws.  This is the run
in which no other callback runs at the two `await`s and the store calls
resolve with the values of `db`. -/
def subscribe (db : Store) (collectionName : CollName) (pipeline : Pipeline)
    (connectionID : ConnID) (s : Mgr) : Completion :=
  let s1 :=
    if mapHas s.collections collectionName = false then
      let collectionExists := db.listCollections.any (fun name => name == collectionName)
      if collectionExists = false then
        emit connectionID (Event.subscribeError collectionName) s
      else
        { s with collections := mapSet s.collections collectionName collectionName }
    else s
  match mapGet s1.collections collectionName with
  | none => { mgr := s1, thrown := some JsError.typeError }
  | some requestedCollection =>
    let s2 := emit connectionID
      (Event.initialDocuments collectionName (db.aggregate requestedCollection pipeline)) s1
    let s3 :=
      if mapHas s2.watches connectionID = false then
        { s2 with watches := mapSet s2.watches connectionID [] }
      else s2
    let w := s3.watchers.length
    let s4 := openWatcher connectionID requestedCollection pipeline s3
    match putProp s4.watches connectionID collectionName w with
    | none => { mgr := s4, thrown := some JsError.typeError }
    | some ws =>
      let s5 := { s4 with watches := ws }
      match getProp s5.watches connectionID collectionName with
      | some (some w') =>
        { mgr := onChange w' (Handler.direct connectionID collectionName) s5,
          thrown := none }
      | _ => { mgr := s5, thrown := some JsError.typeError }

/-- Method `bufferedSubscribe`, resumed after the `await` of line 141 with the
outcome `listed` of `this.db.listCollections().toArray()`, in the state `s`
found at the resumption (`main.mjs`, lines 141-148).  A rejection is thrown
by the `await`. -/
def bufferedSubscribeListed (listed : Awaited (List CollName))
    (collectionName : CollName) (connectionID : ConnID) (s : Mgr) : Completion :=
  match listed with
  | Awaited.rejected => { mgr := s, thrown := some JsError.storeError }
  | Awaited.resolved databaseCollections =>
    let collectionExists := databaseCollections.any (fun name => name == collectionName)
    if collectionExists = false then
      { mgr := emit connectionID (Event.subscribeError collectionName) s, thrown := none }
    else
      { mgr := { s with collections := mapSet s.collections collectionName collectionName },
        thrown := none }

/-- Method `bufferedSubscribe`, resumed after the `await` of line 153 with the
outcome `snapshot` of `requestedCollection.aggregate(pipeline).toArray()`, in
the state `s` found at the resumption (`main.mjs`, lines 151-176);
`requestedCollection` is the local variable assigned at line 149.  The four
maps of the buffering engine get their entry for the connection in the same
branch as `watches`, that is when `watches` has no entry for it. -/
def bufferedSubscribeSnapshot (snapshot : Awaited (List Doc))
    (requestedCollection : CollName) (collectionName : CollName) (changeLimit : Int)
    (emitDelay : Int) (pipeline : Pipeline) (connectionID : ConnID) (s : Mgr) :
    Completion :=
  match snapshot with
  | Awaited.rejected => { mgr := s, thrown := some JsError.storeError }
  | Awaited.resolved data =>
    let s2 := emit connectionID (Event.initialDocuments collectionName data) s
    let s3 :=
      if mapHas s2.watches connectionID = false then
        { s2 with
          watches := mapSet s2.watches connectionID []
          changeBuffers := mapSet s2.changeBuffers connectionID []
          changeLimits := mapSet s2.changeLimits connectionID []
          changeEmitDelays := mapSet s2.changeEmitDelays connectionID []
          changeTimers := mapSet s2.changeTimers connectionID [] }
      else s2
    let w := s3.watchers.length
    let s4 := openWatcher connectionID requestedCollection pipeline s3
    match putProp s4.watches connectionID collectionName w with
    | none => { mgr := s4, thrown := some JsError.typeError }
    | some ws =>
      let s5 := { s4 with watches := ws }
      match putProp s5.changeBuffers connectionID collectionName [] with
      | none => { mgr := s5, thrown := some JsError.typeError }
      | some bufs =>
        let s6 := { s5 with changeBuffers := bufs }
        match putNumber s6.changeLimits connectionID collectionName changeLimit with
        | none => { mgr := s6, thrown := some JsError.typeError }
        | some lims =>
          let s7 := { s6 with changeLimits := lims }
          match putNumber s7.changeEmitDelays connectionID collectionName emitDelay with
          | none => { mgr := s7, thrown := some JsError.typeError }
          | some dls =>
            let s8 := { s7 with changeEmitDelays := dls }
            match putProp s8.changeTimers connectionID collectionName none with
            | none => { mgr := s8, thrown := some JsError.typeError }
            | some tms =>
              let s9 := { s8 with changeTimers := tms }
              match getProp s9.watches connectionID collectionName with
              | some (some w') =>
                { mgr := onChange w' (Handler.buffered connectionID collectionName) s9,
                  thrown := none }
              | _ => { mgr := s9, thrown := some JsError.typeError }

/-- Method `bufferedSubscribe(collectionName, changeLimit, emitDelay, pipeline,
socket)` (`main.mjs`, lines 136-177), with `socket.id` for the socket, in the
run in which no other callback runs at the two `await`s and the store calls
resolve with the values of `db`: the test of line 140, the resumption after
line 141 when the name is not cached, the lookup of line 149 (an `undefined`
handle makes `requestedCollection.aggregate` throw), and the resumption after
line 153. -/
def bufferedSubscribe (db : Store) (collectionName : CollName) (changeLimit : Int)
    (emitDelay : Int) (pipeline : Pipeline) (connectionID : ConnID) (s : Mgr) :
    Completion :=
  let r : Completion :=
    if mapHas s.collections collectionName = false then
      bufferedSubscribeListed (Awaited.resolved db.listCollections) collectionName
        connectionID s
    else { mgr := s, thrown := none }
  match r.thrown with
  | some e => { mgr := r.mgr, thrown := some e }
  | none =>
    match mapGet r.mgr.collections collectionName with
    | none => { mgr := r.mgr, thrown := some JsError.typeError }
    | some requestedCollection =>
      bufferedSubscribeSnapshot
        (Awaited.resolved (db.aggregate requestedCollection pipeline))
        requestedCollection collectionName changeLimit emitDelay pipeline connectionID r.mgr

/-- The body of `for (let key in this.watches.get(connectionID))` in `cleanup`,
run over the keys enumerated when the loop starts.  A key whose property was
deleted before its turn is not visited.  The `delete` of the source removes
the property named `connectionID`, not the property named `key`. -/
def cleanupLoop (connectionID : ConnID) : List String → Mgr → Completion
  | [], s => { mgr := s, thrown := none }
  | key :: rest, s =>
    match mapGet s.watches connectionID with
    | none => { mgr := s, thrown := some JsError.typeError }
    | some obj =>
      match mapGet obj key with
      | none => cleanupLoop connectionID rest s
      | some watcher =>
        let s1 := closeWatcher watcher s
        let s2 := { s1 with
          watches := mapSet s1.watches connectionID (mapDelete obj connectionID) }
        cleanupLoop connectionID rest s2

/-- Method `cleanup(connectionID)` (`main.mjs`, lines 211-222), called when the
socket disconnects.  It reads and writes `watches` only. -/
def cleanup (connectionID : ConnID) (s : Mgr) : Completion :=
  match mapGet s.watches connectionID with
  | some obj =>
    let r := cleanupLoop connectionID (mapKeys obj) s
    match r.thrown with
    | some e => { mgr := r.mgr, thrown := some e }
    | none =>
      { mgr := { r.mgr with watches := mapDelete r.mgr.watches connectionID },
        thrown := none }
  | none => { mgr := s, thrown := none }

/-! ## Callbacks run by the runtime -/

/-- The store delivers `change` on change stream `w`: the handler registered
with `.on("change", ...)` runs, unless the stream is closed. -/
def changeArrives (w : Nat) (change : Change) (s : Mgr) : Completion :=
  match s.watchers.get? w with
  | some wt =>
    if wt.closed then { mgr := s, thrown := none }
    else
      match wt.handler with
      | some (Handler.direct connectionID collectionName) =>
        { mgr := emit connectionID (Event.updateDocuments collectionName change) s,
          thrown := none }
      | some (Handler.buffered connectionID collectionName) =>
        bufferChangeForEmission connectionID collectionName change s
      | none => { mgr := s, thrown := none }
  | none => { mgr := s, thrown := none }

/-- Timer `t` fires: a pending timer runs its callback
`emitBufferedChanges(conn, coll, socket)`; a timer that fired or was cancelled
does nothing. -/
def timerFires (t : Nat) (s : Mgr) : Completion :=
  match s.timers.get? t with
  | some tm =>
    if tm.status = TimerStatus.pending then
      emitBufferedChanges tm.conn tm.coll
        { s with timers := s.timers.set t { tm with status := TimerStatus.fired } }
    else { mgr := s, thrown := none }
  | none => { mgr := s, thrown := none }

/-! ## Traces of one Buffer -/

/-- What can happen to the Buffer of one buffered subscription: the store
delivers a change to it, or the runtime fires a timer. -/
inductive BufferEvent where
  | arrival (change : Change)
  | timer (t : Nat)
  deriving DecidableEq, Repr

/-- One event at the Buffer of `(connectionID, collectionName)`. -/
def bufferStep (connectionID : ConnID) (collectionName : CollName)
    (ev : BufferEvent) (s : Mgr) : Completion :=
  match ev with
  | BufferEvent.arrival change =>
    bufferChangeForEmission connectionID collectionName change s
  | BufferEvent.timer t => timerFires t s

/-- Events in sequence; an uncaught error ends the run. -/
def runEvents (connectionID : ConnID) (collectionName : CollName) :
    List BufferEvent → Mgr → Completion
  | [], s => { mgr := s, thrown := none }
  | ev :: rest, s =>
    let r := bufferStep connectionID collectionName ev s
    match r.thrown with
    | some e => { mgr := r.mgr, thrown := some e }
    | none => runEvents connectionID collectionName rest r.mgr

/-- The changes that arrived, in order of arrival. -/
def arrivals : List BufferEvent → List Change
  | [] => []
  | BufferEvent.arrival change :: rest => change :: arrivals rest
  | BufferEvent.timer _ :: rest => arrivals rest

/-- The batches of the `bufferedUpdateDocuments` events of a log that were
emitted on the socket of `connectionID` for `collectionName`, in order. -/
def batchesFor (connectionID : ConnID) (collectionName : CollName) :
    List (ConnID × Event) → List (List Change)
  | [] => []
  | (c, Event.bufferedUpdateDocuments n changes) :: rest =>
    if c = connectionID ∧ n = collectionName then
      changes :: batchesFor connectionID collectionName rest
    else batchesFor connectionID collectionName rest
  | _ :: rest => batchesFor connectionID collectionName rest

/-- The queue of the Buffer of `(c, n)`, when it is registered. -/
def queueOf (s : Mgr) (c : ConnID) (n : CollName) : Option (List Change) :=
  (getProp s.changeBuffers c n).join

/-- The timers scheduled for the Buffer of `(c, n)` that neither fired nor were
cancelled. -/
def liveTimers (s : Mgr) (c : ConnID) (n : CollName) : List Timer :=
  s.timers.filter
    (fun tm => tm.conn == c && tm.coll == n && decide (tm.status = TimerStatus.pending))

/-- The change streams opened for `(c, n)` and not closed. -/
def openWatchers (s : Mgr) (c : ConnID) (n : CollName) : List Watcher :=
  s.watchers.filter (fun wt => wt.conn == c && wt.coll == n && !wt.closed)

/-- The per-connection objects that `bufferChangeForEmission` dereferences
for `(c, n)` are present, with `lim` the registered limit (`none`:
`undefined`). -/
structure Registered (s : Mgr) (c : ConnID) (n : CollName) (lim : Option Int) : Prop where
  timersEntry : (getProp s.changeTimers c n).isSome
  delaysEntry : (getProp s.changeEmitDelays c n).isSome
  limitsEntry : getProp s.changeLimits c n = some lim

/-- Every pending timer belongs to a Buffer whose queue is registered. -/
def TimersBacked (s : Mgr) : Prop :=
  ∀ tm ∈ s.timers, tm.status = TimerStatus.pending →
    (queueOf s tm.conn tm.coll).isSome = true

instance (s : Mgr) : Decidable (TimersBacked s) := by
  unfold TimersBacked
  infer_instance

/-- The test `bufferLength >= bufferLimit`; it is false for an `undefined`
limit. -/
def reachesLimit (lim : Option Int) (bufferLength : Nat) : Prop :=
  match lim with
  | some limit => (bufferLength : Int) ≥ limit
  | none => False

instance (lim : Option Int) (len : Nat) : Decidable (reachesLimit lim len) := by
  unfold reachesLimit
  cases lim <;> infer_instance

/-! ## Scenarios -/

/-- A store with the collections `orders` and `items`, both empty. -/
def demoStore : Store :=
  { listCollections := ["orders", "items"], aggregate := fun _ _ => [] }

/-- Scenario B of the specification: connection `c1` has made a buffered
subscription to `orders` with `changeLimit = 2` and `emitDelay = 40000`. -/
def scenarioB : Mgr :=
  (bufferedSubscribe demoStore "orders" 2 40000 [] "c1" Mgr.init).mgr

/-- Scenario B after the first insert: one change is queued and the timer is
armed. -/
def scenarioBOne : Mgr :=
  (bufferChangeForEmission "c1" "orders" 1 scenarioB).mgr

/-- Scenario B after two inserts: the second insert flushed the queue on the
count path. -/
def scenarioBFlushed : Mgr :=
  (bufferChangeForEmission "c1" "orders" 2 scenarioBOne).mgr

/-- Scenario E of the specification: connection `c1` disconnects while its
buffered subscription has one pending change; the state after `cleanup`. -/
def scenarioE : Mgr :=
  (cleanup "c1" scenarioBOne).mgr

/-- Connection `c1` calls `subscribe` twice for `orders`. -/
def subscribedTwice : Mgr :=
  (subscribe demoStore "orders" [] "c1"
    (subscribe demoStore "orders" [] "c1" Mgr.init).mgr).mgr

/-- In Scenario B with one pending change, connection `c1` calls
`bufferedSubscribe` for `orders` again, and the store then delivers a change
on the new change stream (stream 1). -/
def resubscribedOne : Mgr :=
  (changeArrives 1 2
    (bufferedSubscribe demoStore "orders" 2 40000 [] "c1" scenarioBOne).mgr).mgr

/-- Connection `c1` holds an immediate-mode subscription to `items`. -/
def subscribedItems : Mgr :=
  (subscribe demoStore "items" [] "c1" Mgr.init).mgr

/-- A `bufferedSubscribe` call of connection `c1` for `orders` on a fresh
manager, at its `await` of the snapshot: the listing has resolved and the
handle is cached. -/
def awaitingSnapshot : Mgr :=
  (bufferedSubscribeListed (Awaited.resolved demoStore.listCollections) "orders" "c1"
    Mgr.init).mgr

/-- The state `awaitingSnapshot` after a `subscribe` of the same connection
for `items` has run while the snapshot was awaited. -/
def awaitingSnapshotSubscribed : Mgr :=
  (subscribe demoStore "items" [] "c1" awaitingSnapshot).mgr

/-! ## Lemmas on finite maps -/

theorem mapGet_mapSet_self {α : Type} (m : JsMap α) (k : String) (v : α) :
    mapGet (mapSet m k v) k = some v := by
  induction m with
  | nil => simp [mapSet, mapGet]
  | cons kv rest ih =>
    obtain ⟨k', v'⟩ := kv
    by_cases h : k' = k
    · simp [mapSet, mapGet, h]
    · simp [mapSet, mapGet, h, ih]

theorem mapGet_mapSet_ne {α : Type} (m : JsMap α) (k k' : String) (v : α)
    (hne : k' ≠ k) : mapGet (mapSet m k v) k' = mapGet m k' := by
  induction m with
  | nil =>
    have : ¬ k = k' := fun h => hne h.symm
    simp [mapSet, mapGet, this]
  | cons kv rest ih =>
    obtain ⟨k1, v1⟩ := kv
    by_cases h : k1 = k
    · have : ¬ k = k' := fun h => hne h.symm
      have h1 : ¬ k1 = k' := by rw [h]; exact this
      simp [mapSet, mapGet, h, this, h1]
    · by_cases h2 : k1 = k'
      · subst h2
        simp [mapSet, mapGet, h]
      · simp [mapSet, mapGet, h, h2, ih]

theorem putProp_of_getProp {α : Type} (m : JsMap (JsMap α)) (c n : String)
    (x : Option α) (v : α) (h : getProp m c n = some x) :
    ∃ m', putProp m c n v = some m' := by
  unfold getProp at h
  unfold putProp
  cases hc : mapGet m c with
  | none => simp [hc] at h
  | some obj => exact ⟨_, rfl⟩

theorem getProp_putProp_self {α : Type} (m m' : JsMap (JsMap α)) (c n : String)
    (v : α) (h : putProp m c n v = some m') : getProp m' c n = some (some v) := by
  unfold putProp at h
  cases hc : mapGet m c with
  | none => simp [hc] at h
  | some obj =>
    simp [hc] at h
    subst h
    simp [getProp, mapGet_mapSet_self]

theorem getProp_putProp_ne {α : Type} (m m' : JsMap (JsMap α)) (c n c' n' : String)
    (v : α) (h : putProp m c n v = some m') (hne : ¬ (c' = c ∧ n' = n)) :
    getProp m' c' n' = getProp m c' n' := by
  unfold putProp at h
  cases hc : mapGet m c with
  | none => simp [hc] at h
  | some obj =>
    simp [hc] at h
    subst h
    by_cases h1 : c' = c
    · subst h1
      have h2 : n' ≠ n := fun h2 => hne ⟨rfl, h2⟩
      simp [getProp, mapGet_mapSet_self, hc, mapGet_mapSet_ne _ _ _ _ h2]
    · simp [getProp, mapGet_mapSet_ne _ _ _ _ h1]

/-- An assignment `m.get(c)[n] = v` leaves every registered property
registered. -/
theorem getProp_putProp_defined {α : Type} (m m' : JsMap (JsMap α))
    (c n c' n' : String) (v x : α) (h : putProp m c n v = some m')
    (hx : getProp m c' n' = some (some x)) :
    ∃ y, getProp m' c' n' = some (some y) := by
  by_cases hk : c' = c ∧ n' = n
  · obtain ⟨h1, h2⟩ := hk
    subst h1; subst h2
    exact ⟨v, getProp_putProp_self m m' _ _ v h⟩
  · exact ⟨x, by rw [getProp_putProp_ne m m' c n c' n' v h hk, hx]⟩

theorem queueOf_eq_some (s : Mgr) (c : ConnID) (n : CollName) (q : List Change) :
    queueOf s c n = some q ↔ getProp s.changeBuffers c n = some (some q) := by
  unfold queueOf
  cases h : getProp s.changeBuffers c n with
  | none => simp
  | some x => cases x <;> simp

theorem timersBacked_iff (s : Mgr) :
    TimersBacked s ↔ ∀ tm ∈ s.timers, tm.status = TimerStatus.pending →
      ∃ q, getProp s.changeBuffers tm.conn tm.coll = some (some q) := by
  unfold TimersBacked
  constructor
  · intro h tm hm hp
    obtain ⟨q, hq⟩ := Option.isSome_iff_exists.mp (h tm hm hp)
    exact ⟨q, (queueOf_eq_some s _ _ q).mp hq⟩
  · intro h tm hm hp
    obtain ⟨q, hq⟩ := h tm hm hp
    exact Option.isSome_iff_exists.mpr ⟨q, (queueOf_eq_some s _ _ q).mpr hq⟩

/-! ## The two methods of the buffering engine in closed form -/

theorem clearExisting_fields (handle : Option (Option Nat)) (s : Mgr) :
    (clearExisting handle s).collections = s.collections ∧
    (clearExisting handle s).watches = s.watches ∧
    (clearExisting handle s).changeBuffers = s.changeBuffers ∧
    (clearExisting handle s).changeLimits = s.changeLimits ∧
    (clearExisting handle s).changeTimers = s.changeTimers ∧
    (clearExisting handle s).changeEmitDelays = s.changeEmitDelays ∧
    (clearExisting handle s).watchers = s.watchers ∧
    (clearExisting handle s).out = s.out ∧
    (clearExisting handle s).timers.length = s.timers.length := by
  unfold clearExisting clearTimeout
  split <;> simp

theorem clearExisting_timers_congr (handle : Option (Option Nat)) (s s' : Mgr)
    (h : s'.timers = s.timers) :
    (clearExisting handle s').timers = (clearExisting handle s).timers := by
  unfold clearExisting clearTimeout
  split <;> simp [h]

theorem emitBufferedChanges_empty (s : Mgr) (c : ConnID) (n : CollName)
    (h : getProp s.changeBuffers c n = some (some [])) :
    emitBufferedChanges c n s = { mgr := s, thrown := none } := by
  simp [emitBufferedChanges, h]

theorem emitBufferedChanges_nonempty (s : Mgr) (c : ConnID) (n : CollName)
    (q : List Change) (h : getProp s.changeBuffers c n = some (some q)) (hq : q ≠ []) :
    ∃ bufs, putProp s.changeBuffers c n [] = some bufs ∧
      emitBufferedChanges c n s =
        { mgr := { s with
                   out := s.out ++ [(c, Event.bufferedUpdateDocuments n q)]
                   changeBuffers := bufs },
          thrown := none } := by
  obtain ⟨bufs, hb⟩ := putProp_of_getProp s.changeBuffers c n (some q) [] h
  refine ⟨bufs, hb, ?_⟩
  have hlen : 0 < q.length := List.length_pos.mpr hq
  simp [emitBufferedChanges, h, hlen, emit, hb]

theorem bufferChangeForEmission_eq (s : Mgr) (c : ConnID) (n : CollName)
    (change : Change) (q : List Change) (lim : Option Int)
    (hq : getProp s.changeBuffers c n = some (some q)) (hr : Registered s c n lim) :
    ∃ bufs tms handle delay,
      putProp s.changeBuffers c n (q ++ [change]) = some bufs ∧
      getProp s.changeTimers c n = some handle ∧
      getProp s.changeEmitDelays c n = some delay ∧
      putProp s.changeTimers c n (some s.timers.length) = some tms ∧
      bufferChangeForEmission c n change s =
        if reachesLimit lim (q.length + 1) then
          emitBufferedChanges c n
            { s with
              changeBuffers := bufs
              changeTimers := tms
              timers := (clearExisting handle s).timers ++
                [{ conn := c, coll := n, delay := delay, status := TimerStatus.pending }] }
        else
          { mgr := { s with
                     changeBuffers := bufs
                     changeTimers := tms
                     timers := (clearExisting handle s).timers ++
                       [{ conn := c, coll := n, delay := delay,
                          status := TimerStatus.pending }] },
            thrown := none } := by
  obtain ⟨bufs, hb⟩ := putProp_of_getProp s.changeBuffers c n (some q) (q ++ [change]) hq
  obtain ⟨handle, hh⟩ := Option.isSome_iff_exists.mp hr.timersEntry
  obtain ⟨delay, hd⟩ := Option.isSome_iff_exists.mp hr.delaysEntry
  obtain ⟨tms, ht⟩ := putProp_of_getProp s.changeTimers c n handle (some s.timers.length) hh
  refine ⟨bufs, tms, handle, delay, hb, hh, hd, ht, ?_⟩
  have hb' := getProp_putProp_self _ _ _ _ _ hb
  obtain ⟨f1, f2, f3, f4, f5, f6, f7, f8, f9⟩ :=
    clearExisting_fields handle { s with changeBuffers := bufs }
  have hts := clearExisting_timers_congr handle s { s with changeBuffers := bufs } rfl
  simp only [bufferChangeForEmission, hq, hb, hh, setTimeout, f1, f2, f3, f4, f5, f6, f7, f8, f9,
    hd, ht, hr.limitsEntry, hb', hts]
  rw [(clearExisting_fields handle s).2.2.2.2.2.2.2.2, ht]
  cases lim with
  | none => simp [reachesLimit]
  | some limit => simp [reachesLimit]

/-- The state that `bufferChangeForEmission` reaches for a registered Buffer
with queue `q`: it never throws; the queue becomes `q ++ [change]`, or is
emitted as one batch and emptied when the limit is reached; the timer read
from `changeTimers` is cancelled and a new pending timer, the last of
`timers`, is recorded in `changeTimers`; nothing else changes. -/
theorem bufferChangeForEmission_result (s : Mgr) (c : ConnID) (n : CollName)
    (change : Change) (q : List Change) (lim : Option Int)
    (hq : getProp s.changeBuffers c n = some (some q)) (hr : Registered s c n lim) :
    ∃ bufs tms handle delay,
      getProp s.changeTimers c n = some handle ∧
      getProp s.changeEmitDelays c n = some delay ∧
      bufferChangeForEmission c n change s =
        { mgr := { s with
                   changeBuffers := bufs
                   changeTimers := tms
                   timers := (clearExisting handle s).timers ++
                     [{ conn := c, coll := n, delay := delay,
                        status := TimerStatus.pending }]
                   out := if reachesLimit lim (q.length + 1)
                     then s.out ++ [(c, Event.bufferedUpdateDocuments n (q ++ [change]))]
                     else s.out },
          thrown := none } ∧
      getProp bufs c n =
        some (some (if reachesLimit lim (q.length + 1) then [] else q ++ [change])) ∧
      (∀ c' n', ¬ (c' = c ∧ n' = n) →
        getProp bufs c' n' = getProp s.changeBuffers c' n') ∧
      getProp tms c n = some (some (some s.timers.length)) ∧
      (∀ c' n', ¬ (c' = c ∧ n' = n) →
        getProp tms c' n' = getProp s.changeTimers c' n') := by
  obtain ⟨bufs, tms, handle, delay, hb, hh, hd, ht, heq⟩ :=
    bufferChangeForEmission_eq s c n change q lim hq hr
  have hb' := getProp_putProp_self _ _ _ _ _ hb
  have ht' := getProp_putProp_self _ _ _ _ _ ht
  have htf : ∀ c' n', ¬ (c' = c ∧ n' = n) →
      getProp tms c' n' = getProp s.changeTimers c' n' :=
    fun c' n' hne => getProp_putProp_ne _ _ _ _ _ _ _ ht hne
  have hbf : ∀ c' n', ¬ (c' = c ∧ n' = n) →
      getProp bufs c' n' = getProp s.changeBuffers c' n' :=
    fun c' n' hne => getProp_putProp_ne _ _ _ _ _ _ _ hb hne
  by_cases hl : reachesLimit lim (q.length + 1)
  · have hne : q ++ [change] ≠ [] := by simp
    obtain ⟨bufs2, hb2, he⟩ := emitBufferedChanges_nonempty
      { s with
        changeBuffers := bufs
        changeTimers := tms
        timers := (clearExisting handle s).timers ++
          [{ conn := c, coll := n, delay := delay, status := TimerStatus.pending }] }
      c n (q ++ [change]) hb' hne
    refine ⟨bufs2, tms, handle, delay, hh, hd, ?_, ?_, ?_, ht', htf⟩
    · rw [heq, if_pos hl, he, if_pos hl]
    · rw [if_pos hl]
      exact getProp_putProp_self _ _ _ _ _ hb2
    · intro c' n' hne'
      rw [getProp_putProp_ne _ _ _ _ _ _ _ hb2 hne', hbf c' n' hne']
  · refine ⟨bufs, tms, handle, delay, hh, hd, ?_, ?_, hbf, ht', htf⟩
    · rw [heq, if_neg hl, if_neg hl]
    · rw [if_neg hl]
      exact hb'

/-! ## Timers -/

theorem mem_modify_cases {α : Type} (f : α → α) :
    ∀ (l : List α) (t : Nat) (x : α), x ∈ l.modify f t → x ∈ l ∨ ∃ y ∈ l, x = f y := by
  intro l
  induction l with
  | nil => intro t x hx; simp at hx
  | cons a rest ih =>
    intro t x hx
    cases t with
    | zero =>
      simp only [List.modify_zero_cons, List.mem_cons] at hx
      rcases hx with hx | hx
      · exact Or.inr ⟨a, List.mem_cons_self _ _, hx⟩
      · exact Or.inl (List.mem_cons_of_mem _ hx)
    | succ t =>
      simp only [List.modify_succ_cons, List.mem_cons] at hx
      rcases hx with hx | hx
      · exact Or.inl (by rw [hx]; exact List.mem_cons_self _ _)
      · rcases ih t x hx with h | ⟨y, hy, hxy⟩
        · exact Or.inl (List.mem_cons_of_mem _ h)
        · exact Or.inr ⟨y, List.mem_cons_of_mem _ hy, hxy⟩

/-- Cancelling a timer makes no timer pending that was not. -/
theorem pending_of_clearExisting (handle : Option (Option Nat)) (s : Mgr) (tm : Timer)
    (hm : tm ∈ (clearExisting handle s).timers) (hp : tm.status = TimerStatus.pending) :
    tm ∈ s.timers := by
  unfold clearExisting at hm
  split at hm
  · unfold clearTimeout at hm
    rcases mem_modify_cases _ _ _ _ hm with h | ⟨y, hy, hxy⟩
    · exact h
    · by_cases hyp : y.status = TimerStatus.pending
      · rw [if_pos hyp] at hxy
        rw [hxy] at hp
        simp at hp
      · rw [if_neg hyp] at hxy
        rw [hxy]
        exact hy
  · exact hm

/-- The state that `timerFires` reaches when every pending timer has a
registered queue: it never throws; it emits at most one batch, the whole
non-empty queue of the timer's Buffer, which it empties. -/
theorem timerFires_result (s : Mgr) (t : Nat) (hb : TimersBacked s) :
    ∃ bufs ts newOut,
      timerFires t s =
        { mgr := { s with changeBuffers := bufs, timers := ts, out := s.out ++ newOut },
          thrown := none } ∧
      (∀ tm ∈ ts, tm.status = TimerStatus.pending → tm ∈ s.timers) ∧
      ((newOut = [] ∧ bufs = s.changeBuffers) ∨
        ∃ c' n' q', q' ≠ [] ∧ getProp s.changeBuffers c' n' = some (some q') ∧
          newOut = [(c', Event.bufferedUpdateDocuments n' q')] ∧
          putProp s.changeBuffers c' n' [] = some bufs) := by
  unfold timerFires
  cases hg : s.timers.get? t with
  | none =>
    refine ⟨s.changeBuffers, s.timers, [], ?_, fun tm h _ => h, Or.inl ⟨rfl, rfl⟩⟩
    simp
  | some tm =>
    by_cases hp : tm.status = TimerStatus.pending
    · have hmem : tm ∈ s.timers := List.get?_mem hg
      obtain ⟨q, hq⟩ := (timersBacked_iff s).mp hb tm hmem hp
      have hts : ∀ tm' ∈ s.timers.set t { tm with status := TimerStatus.fired },
          tm'.status = TimerStatus.pending → tm' ∈ s.timers := by
        intro tm' h' hp'
        rcases List.mem_or_eq_of_mem_set h' with h | h
        · exact h
        · rw [h] at hp'
          simp at hp'
      by_cases hqe : q = []
      · subst hqe
        refine ⟨s.changeBuffers, s.timers.set t { tm with status := TimerStatus.fired }, [],
          ?_, hts, Or.inl ⟨rfl, rfl⟩⟩
        simp only [hp, if_true]
        rw [emitBufferedChanges_empty
          { s with timers := s.timers.set t { tm with status := TimerStatus.fired } } _ _ hq]
        simp
      · obtain ⟨bufs, hput, he⟩ := emitBufferedChanges_nonempty
          { s with timers := s.timers.set t { tm with status := TimerStatus.fired } }
          tm.conn tm.coll q hq hqe
        refine ⟨bufs, s.timers.set t { tm with status := TimerStatus.fired },
          [(tm.conn, Event.bufferedUpdateDocuments tm.coll q)], ?_, hts,
          Or.inr ⟨tm.conn, tm.coll, q, hqe, hq, rfl, hput⟩⟩
        simp only [hp, if_true]
        rw [he]
    · refine ⟨s.changeBuffers, s.timers, [], ?_, fun tm h _ => h, Or.inl ⟨rfl, rfl⟩⟩
      simp [hp]

/-! ## One event at a registered Buffer -/

theorem batchesFor_append (c : ConnID) (n : CollName) (a b : List (ConnID × Event)) :
    batchesFor c n (a ++ b) = batchesFor c n a ++ batchesFor c n b := by
  induction a with
  | nil => simp [batchesFor]
  | cons x rest ih =>
    obtain ⟨c', e⟩ := x
    cases e with
    | subscribeError _ => simpa [batchesFor] using ih
    | initialDocuments _ _ => simpa [batchesFor] using ih
    | updateDocuments _ _ => simpa [batchesFor] using ih
    | bufferedUpdateDocuments n' changes =>
      by_cases h : c' = c ∧ n' = n
      · simp only [List.cons_append, batchesFor, if_pos h]
        exact congrArg (fun l => changes :: l) ih
      · simp only [List.cons_append, batchesFor, if_neg h]
        exact ih

/-- An arrival at a registered Buffer with queue `q`: no error, the Buffer
stays registered, and either the queue becomes `q ++ [change]` and nothing is
emitted, or `q ++ [change]` is emitted as one batch and the queue is empty,
according to the test of the limit. -/
theorem arrival_step (s : Mgr) (c : ConnID) (n : CollName) (change : Change)
    (q : List Change) (lim : Option Int)
    (hq : getProp s.changeBuffers c n = some (some q)) (hr : Registered s c n lim) :
    ∃ s',
      bufferChangeForEmission c n change s = { mgr := s', thrown := none } ∧
      Registered s' c n lim ∧
      (TimersBacked s → TimersBacked s') ∧
      s'.out = (if reachesLimit lim (q.length + 1)
        then s.out ++ [(c, Event.bufferedUpdateDocuments n (q ++ [change]))]
        else s.out) ∧
      getProp s'.changeBuffers c n =
        some (some (if reachesLimit lim (q.length + 1) then [] else q ++ [change])) := by
  obtain ⟨bufs, tms, handle, delay, hh, hd, heq, hbs, hbf, hts, _⟩ :=
    bufferChangeForEmission_result s c n change q lim hq hr
  refine ⟨_, heq, ?_, ?_, rfl, hbs⟩
  · exact
      { timersEntry := by simp [hts]
        delaysEntry := hr.delaysEntry
        limitsEntry := hr.limitsEntry }
  · intro hback
    rw [timersBacked_iff] at hback ⊢
    intro tm hm hp
    simp only [List.mem_append, List.mem_singleton] at hm
    rcases hm with hm | hm
    · have hmem := pending_of_clearExisting handle s tm hm hp
      obtain ⟨x, hx⟩ := hback tm hmem hp
      by_cases hk : tm.conn = c ∧ tm.coll = n
      · rw [hk.1, hk.2]
        exact ⟨_, hbs⟩
      · exact ⟨x, by rw [hbf _ _ hk]; exact hx⟩
    · subst hm
      exact ⟨_, hbs⟩

/-- A timer firing, seen from the registered Buffer of `(c, n)` with queue
`q`: no error, the Buffer stays registered, and either its queue and its
batches are untouched, or the non-empty `q` is emitted as one batch and the
queue is empty. -/
theorem timer_step (s : Mgr) (c : ConnID) (n : CollName) (t : Nat)
    (q : List Change) (lim : Option Int)
    (hq : getProp s.changeBuffers c n = some (some q)) (hr : Registered s c n lim)
    (hback : TimersBacked s) :
    ∃ s' new,
      timerFires t s = { mgr := s', thrown := none } ∧
      Registered s' c n lim ∧ TimersBacked s' ∧ s'.out = s.out ++ new ∧
      ((batchesFor c n new = [] ∧ getProp s'.changeBuffers c n = some (some q)) ∨
       (q ≠ [] ∧ batchesFor c n new = [q] ∧
         getProp s'.changeBuffers c n = some (some []))) := by
  obtain ⟨bufs, ts, newOut, heq, hts, hcase⟩ := timerFires_result s t hback
  have hreg : Registered
      { s with changeBuffers := bufs, timers := ts, out := s.out ++ newOut } c n lim :=
    { timersEntry := hr.timersEntry
      delaysEntry := hr.delaysEntry
      limitsEntry := hr.limitsEntry }
  refine ⟨_, newOut, heq, hreg, ?_, rfl, ?_⟩
  · rw [timersBacked_iff]
    intro tm hm hp
    obtain ⟨x, hx⟩ := (timersBacked_iff s).mp hback tm (hts tm hm hp) hp
    rcases hcase with ⟨_, hbufs⟩ | ⟨c', n', q', _, _, _, hput⟩
    · exact ⟨x, by simp only [hbufs]; exact hx⟩
    · exact getProp_putProp_defined _ _ _ _ _ _ _ x hput hx
  · rcases hcase with ⟨hnew, hbufs⟩ | ⟨c', n', q', hq'ne, hq', hnew, hput⟩
    · left
      subst hnew
      exact ⟨rfl, by simp only [hbufs]; exact hq⟩
    · by_cases hk : c' = c ∧ n' = n
      · right
        obtain ⟨h1, h2⟩ := hk
        subst h1; subst h2
        have hqq : q' = q := by
          rw [hq] at hq'
          simpa using hq'.symm
        subst hqq
        refine ⟨hq'ne, ?_, getProp_putProp_self _ _ _ _ _ hput⟩
        subst hnew
        simp [batchesFor]
      · left
        refine ⟨?_, ?_⟩
        · subst hnew
          simp only [batchesFor, if_neg hk]
        · have hk' : ¬ (c = c' ∧ n = n') := fun h => hk ⟨h.1.symm, h.2.symm⟩
          show getProp bufs c n = some (some q)
          rw [getProp_putProp_ne _ _ _ _ _ _ _ hput hk']
          exact hq

/-! ## Runs of events at a registered Buffer -/

/-- A run of arrivals and timer firings at a registered Buffer with queue `q`
never throws, and the batches it emits for the Buffer, followed by the queue
it leaves, are `q` followed by the arrivals. -/
theorem run_sequence (c : ConnID) (n : CollName) (lim : Option Int) :
    ∀ (evs : List BufferEvent) (s : Mgr) (q : List Change),
      getProp s.changeBuffers c n = some (some q) → Registered s c n lim →
      TimersBacked s →
      ∃ s' new q',
        runEvents c n evs s = { mgr := s', thrown := none } ∧
        s'.out = s.out ++ new ∧
        getProp s'.changeBuffers c n = some (some q') ∧
        (batchesFor c n new).flatten ++ q' = q ++ arrivals evs := by
  intro evs
  induction evs with
  | nil =>
    intro s q hq _ _
    exact ⟨s, [], q, rfl, by simp, hq, by simp [batchesFor, arrivals]⟩
  | cons ev rest ih =>
    intro s q hq hr hback
    cases ev with
    | arrival change =>
      obtain ⟨s1, heq, hr1, hb1, hout, hq1⟩ := arrival_step s c n change q lim hq hr
      obtain ⟨s', new, q', hrun, hout', hq', hseq⟩ := ih s1 _ hq1 hr1 (hb1 hback)
      by_cases hl : reachesLimit lim (q.length + 1)
      · rw [if_pos hl] at hout
        rw [if_pos hl] at hseq
        refine ⟨s', [(c, Event.bufferedUpdateDocuments n (q ++ [change]))] ++ new, q',
          ?_, ?_, hq', ?_⟩
        · simp only [runEvents, bufferStep, heq]
          exact hrun
        · rw [hout', hout, List.append_assoc]
        · rw [batchesFor_append]
          simp only [batchesFor, and_self, if_true, List.flatten_append, List.flatten_cons,
            List.flatten_nil, List.append_nil, arrivals, List.append_assoc]
          rw [hseq]
          simp
      · rw [if_neg hl] at hout
        rw [if_neg hl] at hseq
        refine ⟨s', new, q', ?_, ?_, hq', ?_⟩
        · simp only [runEvents, bufferStep, heq]
          exact hrun
        · rw [hout', hout]
        · rw [hseq]
          simp [arrivals]
    | timer t =>
      obtain ⟨s1, new1, heq, hr1, hb1, hout, hcase⟩ := timer_step s c n t q lim hq hr hback
      rcases hcase with ⟨hbat, hq1⟩ | ⟨hne, hbat, hq1⟩
      · obtain ⟨s', new, q', hrun, hout', hq', hseq⟩ := ih s1 _ hq1 hr1 hb1
        refine ⟨s', new1 ++ new, q', ?_, ?_, hq', ?_⟩
        · simp only [runEvents, bufferStep, heq]
          exact hrun
        · rw [hout', hout, List.append_assoc]
        · rw [batchesFor_append, hbat]
          simpa [arrivals] using hseq
      · obtain ⟨s', new, q', hrun, hout', hq', hseq⟩ := ih s1 _ hq1 hr1 hb1
        refine ⟨s', new1 ++ new, q', ?_, ?_, hq', ?_⟩
        · simp only [runEvents, bufferStep, heq]
          exact hrun
        · rw [hout', hout, List.append_assoc]
        · rw [batchesFor_append, hbat]
          simp only [List.flatten_append, List.flatten_cons, List.flatten_nil, List.append_nil,
            List.append_assoc, arrivals]
          rw [hseq]
          simp

/-- A run of arrivals and timer firings at a registered Buffer whose limit is
the integer `L` and whose queue is shorter than `L` never throws, and every
batch it emits for the Buffer is non-empty and has at most `L` changes. -/
theorem run_batch_bound (c : ConnID) (n : CollName) (L : Int) :
    ∀ (evs : List BufferEvent) (s : Mgr) (q : List Change),
      getProp s.changeBuffers c n = some (some q) → Registered s c n (some L) →
      TimersBacked s → (q.length : Int) < L →
      ∃ s' new,
        runEvents c n evs s = { mgr := s', thrown := none } ∧
        s'.out = s.out ++ new ∧
        ∀ b ∈ batchesFor c n new, b ≠ [] ∧ (b.length : Int) ≤ L := by
  intro evs
  induction evs with
  | nil =>
    intro s q _ _ _ _
    exact ⟨s, [], rfl, by simp, by simp [batchesFor]⟩
  | cons ev rest ih =>
    intro s q hq hr hback hlt
    cases ev with
    | arrival change =>
      obtain ⟨s1, heq, hr1, hb1, hout, hq1⟩ := arrival_step s c n change q (some L) hq hr
      by_cases hl : reachesLimit (some L) (q.length + 1)
      · rw [if_pos hl] at hout
        rw [if_pos hl] at hq1
        have hL : (0 : Int) < L := lt_of_le_of_lt (Int.ofNat_nonneg _) hlt
        obtain ⟨s', new, hrun, hout', hall⟩ :=
          ih s1 [] hq1 hr1 (hb1 hback) (by simpa using hL)
        refine ⟨s', [(c, Event.bufferedUpdateDocuments n (q ++ [change]))] ++ new,
          ?_, ?_, ?_⟩
        · simp only [runEvents, bufferStep, heq]
          exact hrun
        · rw [hout', hout, List.append_assoc]
        · intro b hb
          rw [batchesFor_append] at hb
          simp only [batchesFor, and_self, if_true, List.mem_append, List.mem_singleton] at hb
          rcases hb with hb | hb
          · subst hb
            refine ⟨by simp, ?_⟩
            simp only [List.length_append, List.length_singleton, Nat.cast_add, Nat.cast_one]
            omega
          · exact hall b hb
      · rw [if_neg hl] at hout
        rw [if_neg hl] at hq1
        have hlt1 : ((q ++ [change]).length : Int) < L := by
          simp only [reachesLimit, ge_iff_le, not_le] at hl
          simpa using hl
        obtain ⟨s', new, hrun, hout', hall⟩ := ih s1 _ hq1 hr1 (hb1 hback) hlt1
        refine ⟨s', new, ?_, ?_, hall⟩
        · simp only [runEvents, bufferStep, heq]
          exact hrun
        · rw [hout', hout]
    | timer t =>
      obtain ⟨s1, new1, heq, hr1, hb1, hout, hcase⟩ :=
        timer_step s c n t q (some L) hq hr hback
      rcases hcase with ⟨hbat, hq1⟩ | ⟨hne, hbat, hq1⟩
      · obtain ⟨s', new, hrun, hout', hall⟩ := ih s1 _ hq1 hr1 hb1 hlt
        refine ⟨s', new1 ++ new, ?_, ?_, ?_⟩
        · simp only [runEvents, bufferStep, heq]
          exact hrun
        · rw [hout', hout, List.append_assoc]
        · intro b hb
          rw [batchesFor_append, hbat] at hb
          exact hall b (by simpa using hb)
      · have hL : (0 : Int) < L := lt_of_le_of_lt (Int.ofNat_nonneg _) hlt
        obtain ⟨s', new, hrun, hout', hall⟩ := ih s1 [] hq1 hr1 hb1 (by simpa using hL)
        refine ⟨s', new1 ++ new, ?_, ?_, ?_⟩
        · simp only [runEvents, bufferStep, heq]
          exact hrun
        · rw [hout', hout, List.append_assoc]
        · intro b hb
          rw [batchesFor_append, hbat] at hb
          simp only [List.mem_append, List.mem_singleton, List.singleton_append,
            List.mem_cons] at hb
          rcases hb with hb | hb
          · subst hb
            exact ⟨hne, le_of_lt hlt⟩
          · exact hall b hb

/-! ## Arrivals with no timer firing -/

theorem runEvents_append (c : ConnID) (n : CollName) :
    ∀ (a b : List BufferEvent) (s s1 : Mgr),
      runEvents c n a s = { mgr := s1, thrown := none } →
      runEvents c n (a ++ b) s = runEvents c n b s1 := by
  intro a
  induction a with
  | nil =>
    intro b s s1 h
    simp only [runEvents, Completion.mk.injEq, and_true] at h
    subst h
    rfl
  | cons ev rest ih =>
    intro b s s1 h
    simp only [runEvents, List.cons_append] at h ⊢
    cases hth : (bufferStep c n ev s).thrown with
    | some e => simp [hth] at h
    | none =>
      simp only [hth] at h ⊢
      exact ih b _ s1 h

/-- A full chunk of a list is not changed by what follows the list. -/
theorem chunk_append (chs rest : List Change) (i L : Nat)
    (h : i * L + L ≤ chs.length) :
    ((chs ++ rest).drop (i * L)).take L = (chs.drop (i * L)).take L := by
  have h1 : i * L ≤ chs.length := by omega
  rw [List.drop_append_of_le_length h1]
  apply List.take_append_of_le_length
  rw [List.length_drop]
  omega

theorem full_chunks_below (k L i : Nat) (hi : i < k / L) :
    i * L + L ≤ k := by
  have h1 : (i + 1) * L ≤ k / L * L := Nat.mul_le_mul_right L hi
  have h2 : k / L * L ≤ k := Nat.div_mul_le_self k L
  have h3 : (i + 1) * L = i * L + L := by ring
  omega

/-- After the arrivals `chs` at a registered Buffer with limit `L ≥ 1` and an
empty queue, with no timer firing, the log has grown by the full chunks of
`chs` of length `L`, in order, and the queue holds the rest of `chs`. -/
theorem run_arrivals (c : ConnID) (n : CollName) (L : Nat) (hL : 1 ≤ L) (s : Mgr)
    (hq : getProp s.changeBuffers c n = some (some []))
    (hr : Registered s c n (some (L : Int))) :
    ∀ chs : List Change, ∃ s',
      runEvents c n (chs.map BufferEvent.arrival) s = { mgr := s', thrown := none } ∧
      Registered s' c n (some (L : Int)) ∧
      s'.out = s.out ++ (List.range (chs.length / L)).map
        (fun i => (c, Event.bufferedUpdateDocuments n ((chs.drop (i * L)).take L))) ∧
      getProp s'.changeBuffers c n = some (some (chs.drop (chs.length / L * L))) := by
  intro chs
  induction chs using List.reverseRecOn with
  | nil => exact ⟨s, rfl, hr, by simp, by simpa using hq⟩
  | append_singleton chs change ih =>
    obtain ⟨s1, hrun, hr1, hout1, hq1⟩ := ih
    obtain ⟨s2, heq, hr2, _, hout2, hq2⟩ :=
      arrival_step s1 c n change _ (some (L : Int)) hq1 hr1
    have hrun2 : runEvents c n ((chs ++ [change]).map BufferEvent.arrival) s =
        { mgr := s2, thrown := none } := by
      rw [List.map_append, runEvents_append c n _ _ s s1 hrun]
      simp only [List.map_cons, List.map_nil, runEvents, bufferStep, heq]
    have hdm : L * (chs.length / L) + chs.length % L = chs.length := Nat.div_add_mod _ _
    have hmod : chs.length % L < L := Nat.mod_lt _ (by omega)
    have hcomm : chs.length / L * L = L * (chs.length / L) := Nat.mul_comm _ _
    have hle : chs.length / L * L ≤ chs.length := Nat.div_mul_le_self _ _
    have hqlen : (chs.drop (chs.length / L * L)).length = chs.length % L := by
      rw [List.length_drop]
      omega
    have hchunks : ∀ i ∈ List.range (chs.length / L),
        (c, Event.bufferedUpdateDocuments n (((chs ++ [change]).drop (i * L)).take L)) =
        (c, Event.bufferedUpdateDocuments n ((chs.drop (i * L)).take L)) := by
      intro i hi
      rw [chunk_append chs [change] i L
        (full_chunks_below _ _ _ (List.mem_range.mp hi))]
    refine ⟨s2, hrun2, hr2, ?_, ?_⟩
    · by_cases hl : reachesLimit (some (L : Int)) ((chs.drop (chs.length / L * L)).length + 1)
      · have hfull : chs.length % L + 1 = L := by
          simp only [reachesLimit, ge_iff_le, hqlen] at hl
          omega
        have hdiv : (chs ++ [change]).length / L = chs.length / L + 1 := by
          rw [List.length_append, List.length_singleton]
          apply Nat.div_eq_of_lt_le
          · rw [Nat.add_mul, Nat.one_mul]; omega
          · rw [Nat.succ_mul, Nat.add_mul, Nat.one_mul]; omega
        rw [hout2, if_pos hl, hout1, hdiv, List.range_succ, List.map_append,
          List.map_congr_left hchunks, List.append_assoc]
        congr 2
        simp only [List.map_cons, List.map_nil]
        rw [List.drop_append_of_le_length hle, List.take_of_length_le]
        rw [List.length_append, List.length_singleton, hqlen]
        omega
      · have hpart : chs.length % L + 1 < L := by
          simp only [reachesLimit, ge_iff_le, hqlen, not_le] at hl
          omega
        have hdiv : (chs ++ [change]).length / L = chs.length / L := by
          rw [List.length_append, List.length_singleton]
          apply Nat.div_eq_of_lt_le
          · omega
          · rw [Nat.succ_mul]; omega
        rw [hout2, if_neg hl, hout1, hdiv, List.map_congr_left hchunks]
    · by_cases hl : reachesLimit (some (L : Int)) ((chs.drop (chs.length / L * L)).length + 1)
      · have hfull : chs.length % L + 1 = L := by
          simp only [reachesLimit, ge_iff_le, hqlen] at hl
          omega
        have hdiv : (chs ++ [change]).length / L = chs.length / L + 1 := by
          rw [List.length_append, List.length_singleton]
          apply Nat.div_eq_of_lt_le
          · rw [Nat.add_mul, Nat.one_mul]; omega
          · rw [Nat.succ_mul, Nat.add_mul, Nat.one_mul]; omega
        rw [hq2, if_pos hl, hdiv, List.drop_eq_nil_of_le]
        rw [List.length_append, List.length_singleton, Nat.add_mul, Nat.one_mul]
        omega
      · have hpart : chs.length % L + 1 < L := by
          simp only [reachesLimit, ge_iff_le, hqlen, not_le] at hl
          omega
        have hdiv : (chs ++ [change]).length / L = chs.length / L := by
          rw [List.length_append, List.length_singleton]
          apply Nat.div_eq_of_lt_le
          · omega
          · rw [Nat.succ_mul]; omega
        rw [hq2, if_neg hl, hdiv, List.drop_append_of_le_length hle]

/-! ## The buffering engine: order, batch size, count-triggered batches -/

/-- C5. For a registered Buffer with an empty queue, every finite interleaving
of change arrivals (`bufferChangeForEmission`) and timer firings runs without
error, and the concatenation of the batches emitted for the Buffer, in order
of emission, followed by the events left in the queue, is the sequence of
arrived changes: nothing is lost, duplicated or reordered. -/
theorem buffering_preserves_arrival_order (c : ConnID) (n : CollName)
    (lim : Option Int) (evs : List BufferEvent) (s : Mgr)
    (hq : queueOf s c n = some []) (hr : Registered s c n lim)
    (hb : TimersBacked s) :
    ∃ s' new q',
      runEvents c n evs s = { mgr := s', thrown := none } ∧
      s'.out = s.out ++ new ∧
      queueOf s' c n = some q' ∧
      (batchesFor c n new).flatten ++ q' = arrivals evs := by
  obtain ⟨s', new, q', hrun, hout, hq', hseq⟩ :=
    run_sequence c n lim evs s [] ((queueOf_eq_some s c n []).mp hq) hr hb
  exact ⟨s', new, q', hrun, hout, (queueOf_eq_some s' c n q').mpr hq',
    by simpa using hseq⟩

/-- Witness of C5: Scenario B after a count-triggered flush (empty queue, one
pending timer), then three arrivals, a firing of the pending timer 3 and a
last arrival. -/
theorem buffering_preserves_arrival_order_witness :
    queueOf scenarioBFlushed "c1" "orders" = some [] ∧
    Registered scenarioBFlushed "c1" "orders" (some 2) ∧
    TimersBacked scenarioBFlushed ∧
    ∃ s' new q',
      runEvents "c1" "orders"
        [BufferEvent.arrival 3, BufferEvent.timer 2, BufferEvent.arrival 4,
         BufferEvent.arrival 5, BufferEvent.arrival 6] scenarioBFlushed =
        { mgr := s', thrown := none } ∧
      s'.out = scenarioBFlushed.out ++ new ∧
      queueOf s' "c1" "orders" = some q' ∧
      (batchesFor "c1" "orders" new).flatten ++ q' =
        arrivals [BufferEvent.arrival 3, BufferEvent.timer 2, BufferEvent.arrival 4,
          BufferEvent.arrival 5, BufferEvent.arrival 6] :=
  ⟨by decide,
   { timersEntry := by decide, delaysEntry := by decide, limitsEntry := by decide },
   by decide,
   buffering_preserves_arrival_order "c1" "orders" (some 2) _ scenarioBFlushed
     (by decide)
     { timersEntry := by decide, delaysEntry := by decide, limitsEntry := by decide }
     (by decide)⟩

/-- C6. For a registered Buffer with an integer `changeLimit = L ≥ 1` and an
empty queue, every finite interleaving of change arrivals and timer firings
runs without error, and every batch emitted for the Buffer is non-empty and
holds at most `L` changes. -/
theorem batch_size_within_limit (c : ConnID) (n : CollName) (L : Int) (hL : 1 ≤ L)
    (evs : List BufferEvent) (s : Mgr)
    (hq : queueOf s c n = some []) (hr : Registered s c n (some L))
    (hb : TimersBacked s) :
    ∃ s' new,
      runEvents c n evs s = { mgr := s', thrown := none } ∧
      s'.out = s.out ++ new ∧
      ∀ b ∈ batchesFor c n new, b ≠ [] ∧ (b.length : Int) ≤ L := by
  have h0 : (([] : List Change).length : Int) < L := by
    simp only [List.length_nil, Nat.cast_zero]
    omega
  exact run_batch_bound c n L evs s [] ((queueOf_eq_some s c n []).mp hq) hr hb h0

/-- Witness of C6: Scenario B (limit 2), three arrivals, a firing of the third
timer, and two more arrivals. -/
theorem batch_size_within_limit_witness :
    (1 : Int) ≤ 2 ∧
    queueOf scenarioB "c1" "orders" = some [] ∧
    Registered scenarioB "c1" "orders" (some 2) ∧
    TimersBacked scenarioB ∧
    ∃ s' new,
      runEvents "c1" "orders"
        [BufferEvent.arrival 1, BufferEvent.arrival 2, BufferEvent.arrival 3,
         BufferEvent.timer 2, BufferEvent.arrival 4, BufferEvent.arrival 5] scenarioB =
        { mgr := s', thrown := none } ∧
      s'.out = scenarioB.out ++ new ∧
      ∀ b ∈ batchesFor "c1" "orders" new, b ≠ [] ∧ (b.length : Int) ≤ 2 :=
  ⟨by decide, by decide,
   { timersEntry := by decide, delaysEntry := by decide, limitsEntry := by decide },
   by decide,
   batch_size_within_limit "c1" "orders" 2 (by decide) _ scenarioB (by decide)
     { timersEntry := by decide, delaysEntry := by decide, limitsEntry := by decide }
     (by decide)⟩

/-- C7. For a registered Buffer with `changeLimit = L ≥ 1` and an empty queue,
and for changes `chs` arriving with no timer firing in between: after the
first `j` arrivals, exactly `j / L` batches have been emitted, the batch
number `i` (from 0) being the arrivals `i * L + 1 .. (i + 1) * L`, and the
queue holds the last `j % L` of the `j` arrivals.  Taken at `j = (i + 1) * L - 1`
and at `j = (i + 1) * L`, this shows that batch `i` is emitted while arrival
`(i + 1) * L` is handled. -/
theorem count_flush_batches (c : ConnID) (n : CollName) (L : Nat) (hL : 1 ≤ L)
    (chs : List Change) (s : Mgr)
    (hq : queueOf s c n = some []) (hr : Registered s c n (some (L : Int)))
    (j : Nat) (hj : j ≤ chs.length) :
    ∃ s',
      runEvents c n ((chs.take j).map BufferEvent.arrival) s =
        { mgr := s', thrown := none } ∧
      s'.out = s.out ++ (List.range (j / L)).map
        (fun i => (c, Event.bufferedUpdateDocuments n ((chs.drop (i * L)).take L))) ∧
      queueOf s' c n = some ((chs.take j).drop (j - j % L)) := by
  obtain ⟨s', hrun, _, hout, hq'⟩ :=
    run_arrivals c n L hL s ((queueOf_eq_some s c n []).mp hq) hr (chs.take j)
  have hlen : (chs.take j).length = j := by
    rw [List.length_take]
    omega
  rw [hlen] at hout hq'
  refine ⟨s', hrun, ?_, ?_⟩
  · rw [hout]
    congr 1
    apply List.map_congr_left
    intro i hi
    have hfull : i * L + L ≤ (chs.take j).length := by
      rw [hlen]
      exact full_chunks_below _ _ _ (List.mem_range.mp hi)
    have := chunk_append (chs.take j) (chs.drop j) i L hfull
    rw [List.take_append_drop] at this
    rw [this]
  · rw [queueOf_eq_some, hq']
    have hdm : L * (j / L) + j % L = j := Nat.div_add_mod _ _
    have : j / L * L = j - j % L := by
      rw [Nat.mul_comm]
      omega
    rw [this]

/-- Witness of C7, Scenario B: with `L = 2`, three inserts give one batch of the
first two inserts and a queue holding the third. -/
theorem count_flush_batches_witness :
    1 ≤ 2 ∧
    queueOf scenarioB "c1" "orders" = some [] ∧
    Registered scenarioB "c1" "orders" (some ((2 : Nat) : Int)) ∧
    3 ≤ [10, 20, 30].length ∧
    ∃ s',
      runEvents "c1" "orders" (([10, 20, 30].take 3).map BufferEvent.arrival) scenarioB =
        { mgr := s', thrown := none } ∧
      s'.out = scenarioB.out ++ (List.range (3 / 2)).map
        (fun i => ("c1", Event.bufferedUpdateDocuments "orders"
          (([10, 20, 30].drop (i * 2)).take 2))) ∧
      queueOf s' "c1" "orders" = some (([10, 20, 30].take 3).drop (3 - 3 % 2)) :=
  ⟨by decide, by decide,
   { timersEntry := by decide, delaysEntry := by decide, limitsEntry := by decide },
   by decide,
   count_flush_batches "c1" "orders" 2 (by decide) [10, 20, 30] scenarioB (by decide)
     { timersEntry := by decide, delaysEntry := by decide, limitsEntry := by decide }
     3 (by decide)⟩

/-! ## The count path and the timer -/

/-- C1, counterexample.  In Scenario B the queue holds one change and the
limit is 2; the second arrival flushes on the count path, and afterwards the
queue is empty but the timer armed by that call is still pending. -/
theorem count_flush_leaves_timer_armed :
    queueOf scenarioBOne "c1" "orders" = some [1] ∧
    Registered scenarioBOne "c1" "orders" (some 2) ∧
    (bufferChangeForEmission "c1" "orders" 2 scenarioBOne).thrown = none ∧
    (bufferChangeForEmission "c1" "orders" 2 scenarioBOne).mgr.out =
      scenarioBOne.out ++ [("c1", Event.bufferedUpdateDocuments "orders" [1, 2])] ∧
    queueOf (bufferChangeForEmission "c1" "orders" 2 scenarioBOne).mgr "c1" "orders" =
      some [] ∧
    getProp (bufferChangeForEmission "c1" "orders" 2 scenarioBOne).mgr.changeTimers
      "c1" "orders" = some (some (some 1)) ∧
    liveTimers (bufferChangeForEmission "c1" "orders" 2 scenarioBOne).mgr "c1" "orders" =
      [{ conn := "c1", coll := "orders", delay := some 40000,
         status := TimerStatus.pending }] := by
  refine ⟨by decide, ?_, by decide, by decide, by decide, by decide, by decide⟩
  exact { timersEntry := by decide, delaysEntry := by decide, limitsEntry := by decide }

/-- C1, amended.  When an arrival at a registered Buffer brings the queue
length to the limit `L` or more, `bufferChangeForEmission` completes without
error, emits the whole queue with the new change as one batch and leaves the
queue empty; the timer it armed, the last timer scheduled, stays recorded in
`changeTimers` and pending (the flush does not disarm it); and when that timer
fires next, nothing is emitted. -/
theorem count_flush_result (c : ConnID) (n : CollName) (L : Int) (change : Change)
    (q : List Change) (s : Mgr)
    (hq : queueOf s c n = some q) (hr : Registered s c n (some L))
    (hcount : L ≤ (q.length : Int) + 1) :
    ∃ s' delay,
      bufferChangeForEmission c n change s = { mgr := s', thrown := none } ∧
      s'.out = s.out ++ [(c, Event.bufferedUpdateDocuments n (q ++ [change]))] ∧
      queueOf s' c n = some [] ∧
      getProp s'.changeTimers c n = some (some (some s.timers.length)) ∧
      s'.timers.get? s.timers.length =
        some { conn := c, coll := n, delay := delay, status := TimerStatus.pending } ∧
      timerFires s.timers.length s' =
        { mgr := { s' with
                   timers := s'.timers.set s.timers.length
                     { conn := c, coll := n, delay := delay, status := TimerStatus.fired } },
          thrown := none } := by
  have hl : reachesLimit (some L) (q.length + 1) := by
    simp only [reachesLimit, ge_iff_le, Nat.cast_add, Nat.cast_one]
    exact hcount
  obtain ⟨bufs, tms, handle, delay, _, _, heq, hbs, _, hts, _⟩ :=
    bufferChangeForEmission_result s c n change q (some L)
      ((queueOf_eq_some s c n q).mp hq) hr
  rw [if_pos hl] at heq hbs
  have hget : ((clearExisting handle s).timers ++
      [({ conn := c, coll := n, delay := delay, status := TimerStatus.pending } : Timer)]).get?
        s.timers.length =
      some { conn := c, coll := n, delay := delay, status := TimerStatus.pending } := by
    rw [← (clearExisting_fields handle s).2.2.2.2.2.2.2.2]
    simp
  refine ⟨_, delay, heq, rfl, (queueOf_eq_some _ c n []).mpr hbs, hts, hget, ?_⟩
  unfold timerFires
  simp only [hget, if_true]
  rw [emitBufferedChanges_empty _ c n hbs]

/-- Witness of C1 amended: the second insert of Scenario B. -/
theorem count_flush_result_witness :
    queueOf scenarioBOne "c1" "orders" = some [1] ∧
    Registered scenarioBOne "c1" "orders" (some 2) ∧
    (2 : Int) ≤ (([1] : List Change).length : Int) + 1 ∧
    ∃ s' delay,
      bufferChangeForEmission "c1" "orders" 2 scenarioBOne =
        { mgr := s', thrown := none } ∧
      s'.out = scenarioBOne.out ++
        [("c1", Event.bufferedUpdateDocuments "orders" ([1] ++ [2]))] ∧
      queueOf s' "c1" "orders" = some [] ∧
      getProp s'.changeTimers "c1" "orders" = some (some (some scenarioBOne.timers.length)) ∧
      s'.timers.get? scenarioBOne.timers.length =
        some { conn := "c1", coll := "orders", delay := delay,
               status := TimerStatus.pending } ∧
      timerFires scenarioBOne.timers.length s' =
        { mgr := { s' with
                   timers := s'.timers.set scenarioBOne.timers.length
                     { conn := "c1", coll := "orders", delay := delay,
                       status := TimerStatus.fired } },
          thrown := none } :=
  ⟨by decide,
   { timersEntry := by decide, delaysEntry := by decide, limitsEntry := by decide },
   by decide,
   count_flush_result "c1" "orders" 2 2 [1] scenarioBOne (by decide)
     { timersEntry := by decide, delaysEntry := by decide, limitsEntry := by decide }
     (by decide)⟩

/-! ## Cleanup -/

/-- C2, at the failing input (Scenario E).  Connection `c1` has one unflushed
change and an armed timer; `cleanup` closes the change stream and removes
`c1` from `watches`, but the queue and the pending timer remain, and when the
timer fires the queued change is emitted as `bufferedUpdateDocuments` on the
socket of `c1`. -/
theorem cleanup_keeps_queue_and_timer :
    queueOf scenarioBOne "c1" "orders" = some [1] ∧
    liveTimers scenarioBOne "c1" "orders" =
      [{ conn := "c1", coll := "orders", delay := some 40000,
         status := TimerStatus.pending }] ∧
    (cleanup "c1" scenarioBOne).thrown = none ∧
    mapHas scenarioE.watches "c1" = false ∧
    openWatchers scenarioE "c1" "orders" = [] ∧
    scenarioE.out = scenarioBOne.out ∧
    queueOf scenarioE "c1" "orders" = some [1] ∧
    liveTimers scenarioE "c1" "orders" =
      [{ conn := "c1", coll := "orders", delay := some 40000,
         status := TimerStatus.pending }] ∧
    (timerFires 0 scenarioE).mgr.out =
      scenarioE.out ++ [("c1", Event.bufferedUpdateDocuments "orders" [1])] := by
  decide

/-! ## Subscribing -/

/-- C3, at the failing input.  After two `subscribe` calls of connection `c1`
for `orders`, two change streams opened for `(c1, orders)` are open: the
second call registered stream 1 and did not close stream 0. -/
theorem resubscribe_leaves_two_open_watchers :
    (subscribe demoStore "orders" [] "c1" Mgr.init).thrown = none ∧
    (subscribe demoStore "orders" [] "c1"
      (subscribe demoStore "orders" [] "c1" Mgr.init).mgr).thrown = none ∧
    getProp subscribedTwice.watches "c1" "orders" = some (some 1) ∧
    (openWatchers subscribedTwice "c1" "orders").length = 2 ∧
    (subscribedTwice.watchers.get? 0).map Watcher.closed = some false := by
  decide

/-- C4, at the failing input (Scenario C).  `subscribe` for the collection
`ghost`, which is neither cached nor in the store, emits `subscribeError` for
`ghost`, opens no change stream and caches no handle, and then throws a
`TypeError`: the promise returned by `subscribe` is rejected. -/
theorem subscribe_unknown_collection_throws :
    mapHas Mgr.init.collections "ghost" = false ∧
    demoStore.listCollections.contains "ghost" = false ∧
    (subscribe demoStore "ghost" [] "c1" Mgr.init).mgr.out =
      [("c1", Event.subscribeError "ghost")] ∧
    (subscribe demoStore "ghost" [] "c1" Mgr.init).mgr.watchers = [] ∧
    (subscribe demoStore "ghost" [] "c1" Mgr.init).mgr.watches = [] ∧
    mapHas (subscribe demoStore "ghost" [] "c1" Mgr.init).mgr.collections "ghost" = false ∧
    (subscribe demoStore "ghost" [] "c1" Mgr.init).thrown = some JsError.typeError := by
  decide

/-- C8, at the failing input.  Connection `c1` has a pending change and an
armed timer, calls `bufferedSubscribe` for `orders` again, and a change
arrives: `bufferedSubscribe` has reset the timer handle to `null` without
cancelling the timer, so the arrival arms a second timer and two timers of the
Buffer `(c1, orders)` are live. -/
theorem resubscribe_leaves_two_live_timers :
    (bufferedSubscribe demoStore "orders" 2 40000 [] "c1" scenarioBOne).thrown = none ∧
    (changeArrives 1 2
      (bufferedSubscribe demoStore "orders" 2 40000 [] "c1" scenarioBOne).mgr).thrown =
      none ∧
    (liveTimers resubscribedOne "c1" "orders").length = 2 := by
  decide

/-- C9, counterexample.  `bufferedSubscribe` with `changeLimit = 0` and
`emitDelay = -5` completes without error and creates the subscription: a
change stream is opened and the buffer, limit, delay and timer entries are
registered. -/
theorem bufferedSubscribe_accepts_invalid_parameters :
    (bufferedSubscribe demoStore "orders" 0 (-5) [] "c1" Mgr.init).thrown = none ∧
    (openWatchers (bufferedSubscribe demoStore "orders" 0 (-5) [] "c1" Mgr.init).mgr
      "c1" "orders").length = 1 ∧
    queueOf (bufferedSubscribe demoStore "orders" 0 (-5) [] "c1" Mgr.init).mgr
      "c1" "orders" = some [] ∧
    getProp (bufferedSubscribe demoStore "orders" 0 (-5) [] "c1" Mgr.init).mgr.changeLimits
      "c1" "orders" = some (some 0) ∧
    getProp (bufferedSubscribe demoStore "orders" 0 (-5) [] "c1" Mgr.init).mgr.changeEmitDelays
      "c1" "orders" = some (some (-5)) ∧
    getProp (bufferedSubscribe demoStore "orders" 0 (-5) [] "c1" Mgr.init).mgr.changeTimers
      "c1" "orders" = some (some none) := by
  decide

theorem modify_length_append_singleton {α : Type} (f : α → α) (l : List α) (x : α) :
    (l ++ [x]).modify f l.length = l ++ [f x] := by
  induction l with
  | nil => simp
  | cons a rest ih => simp [ih]

/-- C9, amended.  `bufferedSubscribe` does not validate `changeLimit` and
`emitDelay`.  When a call resumes after the `await` of the snapshot with the
snapshot `data`, for a collection name other than `__proto__` and on a
connection that has no entry in `watches` at that moment, the rest of the
call runs without error for any integers `changeLimit` and `emitDelay`: it
emits `initialDocuments`, opens one change stream wired to the buffering
engine, and registers it with an empty queue, the given limit and delay and a
`null` timer. -/
theorem bufferedSubscribe_registers (data : List Doc) (requestedCollection : CollName)
    (n : CollName) (L d : Int) (p : Pipeline) (c : ConnID) (s : Mgr)
    (hname : n ≠ "__proto__") (hfresh : mapHas s.watches c = false) :
    ∃ s', bufferedSubscribeSnapshot (Awaited.resolved data) requestedCollection n L d p c s =
        { mgr := s', thrown := none } ∧
      s'.out = s.out ++ [(c, Event.initialDocuments n data)] ∧
      queueOf s' c n = some [] ∧
      getProp s'.changeLimits c n = some (some L) ∧
      getProp s'.changeEmitDelays c n = some (some d) ∧
      getProp s'.changeTimers c n = some (some none) ∧
      getProp s'.watches c n = some (some s.watchers.length) ∧
      s'.watchers = s.watchers ++
        [{ conn := c, coll := requestedCollection, pipeline := p,
           handler := some (Handler.buffered c n), closed := false }] := by
  have hw : mapGet s.watches c = none := by
    cases h : mapGet s.watches c with
    | none => rfl
    | some obj => simp [mapHas, h] at hfresh
  simp [bufferedSubscribeSnapshot, mapHas, hw, emit, openWatcher, putProp, putNumber, hname,
    getProp, mapGet_mapSet_self, onChange, queueOf, modify_length_append_singleton]

/-- Witness of C9 amended: `changeLimit = 0` and `emitDelay = -5`, at the
resumption of the first call of connection `c1`. -/
theorem bufferedSubscribe_registers_witness :
    "orders" ≠ "__proto__" ∧
    mapHas awaitingSnapshot.watches "c1" = false ∧
    ∃ s', bufferedSubscribeSnapshot (Awaited.resolved []) "orders" "orders" 0 (-5) [] "c1"
        awaitingSnapshot = { mgr := s', thrown := none } ∧
      s'.out = awaitingSnapshot.out ++ [("c1", Event.initialDocuments "orders" [])] ∧
      queueOf s' "c1" "orders" = some [] ∧
      getProp s'.changeLimits "c1" "orders" = some (some 0) ∧
      getProp s'.changeEmitDelays "c1" "orders" = some (some (-5)) ∧
      getProp s'.changeTimers "c1" "orders" = some (some none) ∧
      getProp s'.watches "c1" "orders" = some (some awaitingSnapshot.watchers.length) ∧
      s'.watchers = awaitingSnapshot.watchers ++
        [{ conn := "c1", coll := "orders", pipeline := [],
           handler := some (Handler.buffered "c1" "orders"), closed := false }] :=
  ⟨by decide, by decide,
   bufferedSubscribe_registers [] "orders" "orders" 0 (-5) [] "c1" awaitingSnapshot
     (by decide) (by decide)⟩

/-- What the resumption rules out.  A `subscribe` of the same connection that
runs while the snapshot is awaited creates the entry in `watches`, and the
resumed `bufferedSubscribe` then throws at line 167 although `watches` had no
entry for the connection when the call was made; under the key `__proto__`
the limit and the delay are not registered; and a rejected snapshot is thrown
before anything is emitted or registered. -/
theorem bufferedSubscribe_resumption_limits :
    mapHas Mgr.init.watches "c1" = false ∧
    (bufferedSubscribeSnapshot (Awaited.resolved []) "orders" "orders" 2 40000 [] "c1"
      awaitingSnapshotSubscribed).thrown = some JsError.typeError ∧
    getProp (bufferedSubscribeSnapshot (Awaited.resolved []) "__proto__" "__proto__" 2 40000
      [] "c1" Mgr.init).mgr.changeLimits "c1" "__proto__" = some none ∧
    getProp (bufferedSubscribeSnapshot (Awaited.resolved []) "__proto__" "__proto__" 2 40000
      [] "c1" Mgr.init).mgr.changeEmitDelays "c1" "__proto__" = some none ∧
    bufferedSubscribeSnapshot Awaited.rejected "orders" "orders" 2 40000 [] "c1"
      awaitingSnapshot = { mgr := awaitingSnapshot, thrown := some JsError.storeError } := by
  decide

/-- C10, at the failing input.  Connection `c1` holds an immediate-mode
subscription to `items`; `bufferedSubscribe` for the existing collection
`orders` with `changeLimit = 2` and `emitDelay = 40000` opens a change stream
and registers it in `watches`, then throws a `TypeError` at the assignment to
`changeBuffers.get(connectionID)[collectionName]`: no Buffer is registered and
the new change stream has no handler and stays open. -/
theorem bufferedSubscribe_after_subscribe_throws :
    (subscribe demoStore "items" [] "c1" Mgr.init).thrown = none ∧
    demoStore.listCollections.contains "orders" = true ∧
    (bufferedSubscribe demoStore "orders" 2 40000 [] "c1" subscribedItems).thrown =
      some JsError.typeError ∧
    queueOf (bufferedSubscribe demoStore "orders" 2 40000 [] "c1" subscribedItems).mgr
      "c1" "orders" = none ∧
    getProp (bufferedSubscribe demoStore "orders" 2 40000 [] "c1" subscribedItems).mgr.changeBuffers
      "c1" "orders" = none ∧
    (bufferedSubscribe demoStore "orders" 2 40000 [] "c1" subscribedItems).mgr.watchers.get? 1 =
      some { conn := "c1", coll := "orders", pipeline := [], handler := none,
             closed := false } := by
  decide

end PubSub
